import Mathlib

/-!
Verification of the molecule-identification pipeline of `nomad-molecules`
(`src/nomad_molecules/normalizers/atoms_utils.py` and
`src/nomad_molecules/normalizers/molecules.py`).

The Python code is shallowly embedded: numpy float vectors become exact
rational 3-vectors (`Vec3`), the ASE `Atoms` object becomes `AtomSet`,
external collaborators (file existence test, `atoms_to_inchikey`,
`basic_offline_search`, `matid.get_dimensionality`) become function
parameters, and Python exceptions become `Except`/`Option` results.
-/

/-- An exact rational 3-vector, standing for a numpy float64 length-3 array. -/
structure Vec3 where
  x : ℚ
  y : ℚ
  z : ℚ
deriving DecidableEq

instance : Add Vec3 := ⟨fun a b => ⟨a.x + b.x, a.y + b.y, a.z + b.z⟩⟩
instance : Sub Vec3 := ⟨fun a b => ⟨a.x - b.x, a.y - b.y, a.z - b.z⟩⟩
instance : Neg Vec3 := ⟨fun a => ⟨-a.x, -a.y, -a.z⟩⟩

/-- Scalar multiple of a vector. -/
def Vec3.smul (c : ℚ) (v : Vec3) : Vec3 := ⟨c * v.x, c * v.y, c * v.z⟩

/-- Dot product. -/
def Vec3.dot (a b : Vec3) : ℚ := a.x * b.x + a.y * b.y + a.z * b.z

/-- Cross product, with numpy's `np.cross` orientation. -/
def Vec3.cross (a b : Vec3) : Vec3 :=
  ⟨a.y * b.z - a.z * b.y, a.z * b.x - a.x * b.z, a.x * b.y - a.y * b.x⟩

/-- Squared Euclidean norm. -/
def Vec3.sqNorm (v : Vec3) : ℚ := v.dot v

/-- A 3x3 matrix stored as its rows; stands for the ASE cell matrix, whose
rows are the lattice vectors. -/
structure Mat3 where
  r0 : Vec3
  r1 : Vec3
  r2 : Vec3
deriving DecidableEq

/-- Determinant (`np.linalg.det`). -/
def Mat3.det (m : Mat3) : ℚ :=
  m.r0.x * (m.r1.y * m.r2.z - m.r1.z * m.r2.y)
    - m.r0.y * (m.r1.x * m.r2.z - m.r1.z * m.r2.x)
    + m.r0.z * (m.r1.x * m.r2.y - m.r1.y * m.r2.x)

/-- Matrix-vector product `m @ v` (`m.dot(v)` in numpy): each row dotted
with `v`. -/
def Mat3.matvec (m : Mat3) (v : Vec3) : Vec3 :=
  ⟨m.r0.dot v, m.r1.dot v, m.r2.dot v⟩

/-- Transpose; its rows are the columns of the original matrix. -/
def Mat3.transpose (m : Mat3) : Mat3 :=
  ⟨⟨m.r0.x, m.r1.x, m.r2.x⟩, ⟨m.r0.y, m.r1.y, m.r2.y⟩, ⟨m.r0.z, m.r1.z, m.r2.z⟩⟩

/-- Cramer solution of `m @ u = d` (the linear system solved by
`np.linalg.solve(cell, disp)`); total stand-in for the `none` branch of
`npSolve`. -/
def Mat3.solveVec (m : Mat3) (d : Vec3) : Vec3 :=
  let t := m.transpose
  ⟨(Mat3.det ⟨d, t.r1, t.r2⟩) / m.det,
   (Mat3.det ⟨t.r0, d, t.r2⟩) / m.det,
   (Mat3.det ⟨t.r0, t.r1, d⟩) / m.det⟩

/-- `np.linalg.solve(cell, disp)`: fails (raises `LinAlgError`) exactly on a
singular matrix, which in exact arithmetic means determinant zero. -/
def npSolve (m : Mat3) (d : Vec3) : Option Vec3 :=
  if m.det = 0 then Option.none else some (m.solveVec d)

/-- `np.round` on a rational scalar: round half to even. -/
def npRound (q : ℚ) : ℤ :=
  if q < ⌊q⌋ + 1 / 2 then ⌊q⌋
  else if (⌊q⌋ : ℚ) + 1 / 2 < q then ⌊q⌋ + 1
  else if ⌊q⌋ % 2 = 0 then ⌊q⌋ else ⌊q⌋ + 1

/-- `np.round` applied componentwise, cast back to rationals. -/
def npRoundVec (v : Vec3) : Vec3 :=
  ⟨(npRound v.x : ℚ), (npRound v.y : ℚ), (npRound v.z : ℚ)⟩

/-- The ASE `Atoms` object as the pipeline uses it: chemical symbols,
Cartesian positions, the 3x3 cell matrix (rows are lattice vectors) and the
three periodic-boundary flags. -/
structure AtomSet where
  symbols : List String
  positions : List Vec3
  cell : Mat3
  pbc : Bool × Bool × Bool
deriving DecidableEq

/-- `all(atoms.pbc)`. -/
def allPbc (a : AtomSet) : Bool := a.pbc.1 && a.pbc.2.1 && a.pbc.2.2

/-- `SINGULAR_CELL_DET_THRESHOLD = 1e-8` from `atoms_utils.py`. -/
def SINGULAR_CELL_DET_THRESHOLD : ℚ := 1 / 100000000

/-- Absolute value on ℚ, written so the kernel can evaluate it. -/
def qabs (q : ℚ) : ℚ := if q < 0 then -q else q

/-- Binary minimum on ℚ, kernel-evaluable. -/
def qmin2 (a b : ℚ) : ℚ := if a ≤ b then a else b

/-- Binary maximum on ℚ, kernel-evaluable. -/
def qmax2 (a b : ℚ) : ℚ := if a ≤ b then b else a

/-- Minimum over a list of rationals, `0` on the empty list (never used
empty). -/
def qmin : List ℚ → ℚ
  | [] => 0
  | a :: as => as.foldl qmin2 a

/-- Maximum over a list of rationals, `0` on the empty list. -/
def qmax : List ℚ → ℚ
  | [] => 0
  | a :: as => as.foldl qmax2 a

/-- The translation applied by ASE `Atoms.center()` with `vacuum=None`,
`axis=(0,1,2)`, `about=None`.  ASE computes, for each cell axis `i`, the
unit normal of the opposite cell faces, projects all positions on it and
shifts by `0.5*(height-p0-p1)/height` of the axis vector; the normalization
of the face normal cancels in that ratio, so the unnormalized cross
products are used here and the computation stays rational. -/
def centerTranslation (atoms : AtomSet) : Vec3 :=
  let cell := atoms.cell
  let pts := if atoms.positions.isEmpty then [(⟨0, 0, 0⟩ : Vec3)] else atoms.positions
  let dir := fun (u v w : Vec3) => let c := Vec3.cross u v; if c.dot w < 0 then -c else c
  let d0 := dir cell.r2 cell.r1 cell.r0
  let d1 := dir cell.r0 cell.r2 cell.r1
  let d2 := dir cell.r1 cell.r0 cell.r2
  let shiftAlong := fun (d axisRow : Vec3) =>
    let p0 := qmin (pts.map (fun p => p.dot d))
    let p1 := qmax (pts.map (fun p => p.dot d))
    let h := axisRow.dot d
    Vec3.smul ((h - p0 - p1) / (2 * h)) axisRow
  shiftAlong d0 cell.r0 + shiftAlong d1 cell.r1 + shiftAlong d2 cell.r2

/-- ASE `Atoms.center()`: translate every position by `centerTranslation`. -/
def center (atoms : AtomSet) : AtomSet :=
  { atoms with positions := atoms.positions.map (fun p => p + centerTranslation atoms) }

/-- The per-atom correction of `wrap_atoms`: from the displacement to the
reference atom, solve for fractional (cell-column-basis) coordinates, round
to the nearest integers and subtract that cell translation.  The
`LinAlgError` branch of the source sets the fractional coordinates to zero,
which leaves the displacement unchanged. -/
def wrapDisp (cell : Mat3) (disp : Vec3) : Vec3 :=
  match npSolve cell disp with
  | Option.none => disp - cell.matvec (npRoundVec ⟨0, 0, 0⟩)
  | some frac => disp - cell.matvec (npRoundVec frac)

/-- `wrap_atoms` from `atoms_utils.py`: skip when the cell determinant is
below the singular threshold, otherwise correct every atom after the first
by the rounded fractional displacement from atom 0, then recenter.  An
empty position list would raise `IndexError` at `positions[0]` in the
source; the pipeline guards it upstream, and the embedding returns the
input unchanged there. -/
def wrap_atoms (atoms : AtomSet) : AtomSet :=
  if qabs atoms.cell.det < SINGULAR_CELL_DET_THRESHOLD then atoms
  else
    match atoms.positions with
    | [] => atoms
    | ref :: rest =>
      center { atoms with
                positions := ref :: rest.map (fun p => ref + wrapDisp atoms.cell (p - ref)) }

/-- A database record (a Python dict of string keys and values, as returned
by `basic_offline_search`), modelled as an association list. -/
abbrev Record : Type := List (String × String)

/-- Python dict access `r[k]`, `Option.none` when the key is absent
(`KeyError`). -/
def recLookup (r : Record) (k : String) : Option String :=
  match r with
  | [] => Option.none
  | (k', v) :: rest => if k' = k then some v else recLookup rest k

/-- Python truthiness of a dict: empty means falsy. -/
def recIsEmpty (r : Record) : Bool :=
  match r with
  | [] => true
  | _ :: _ => false

/-- The triple `(inchikey, results_list, full_match_flag)` returned by
`query_molecule_database_util`. -/
structure QueryResult where
  inchikey : Option String
  results : List Record
  full_match : Option Bool
deriving DecidableEq

/-- The match tier of the spec: `full` / `partial` (called `skeleton` here
after the code's `'skeleton (core)'` label) / `none` (`noMatch` here). -/
inductive Tier where
  | full : Tier
  | skeleton : Tier
  | noMatch : Tier
deriving DecidableEq

/-- The tier encoded by a `QueryResult`: `molecules.py` reads the flag as
full when `True`, partial when `False`, and skips the entry when `None`. -/
def QueryResult.tier (q : QueryResult) : Tier :=
  match q.full_match with
  | Option.none => Tier.noMatch
  | some true => Tier.full
  | some false => Tier.skeleton

/-- `query_molecule_database_util` from `atoms_utils.py`.  The external
collaborators are parameters: `fileExists` is `os.path.isfile`,
`atomsToInchikey` is `molid`'s `atoms_to_inchikey` and `dbSearch` is
`basic_offline_search`; an `Except.error` value stands for a raised
exception, which the source catches clause by clause. -/
def query_molecule_database_util (fileExists : String → Bool)
    (atomsToInchikey : AtomSet → Except String String)
    (dbSearch : String → String → Except String (List Record))
    (atoms : AtomSet) (database_file : String) : QueryResult :=
  if fileExists database_file = false then ⟨Option.none, [], Option.none⟩
  else
    match atomsToInchikey atoms with
    | Except.error _ => ⟨Option.none, [], Option.none⟩
    | Except.ok inchikey =>
      match dbSearch database_file inchikey with
      | Except.error _ => ⟨Option.none, [], Option.none⟩
      | Except.ok results =>
        if results.isEmpty || recIsEmpty (results.headD []) then
          ⟨some inchikey, [], Option.none⟩
        else
          match recLookup (results.headD []) "InChIKey" with
          | Option.none => ⟨Option.none, [], Option.none⟩
          | some stored => ⟨some inchikey, results, some (stored == inchikey)⟩

/-- The `results.Cheminformatics` section written by the normalizer; every
field is optional and unset by default. -/
structure Cheminformatics where
  smiles : Option String
  inchi_key : Option String
  inchi : Option String
  match_type : Option String
deriving DecidableEq

/-- One entry of `archive.results.material.topology` with the fields the
pipeline reads and writes.  `atoms` and `atoms_ref` hold the ASE image of
the respective NOMAD section (`to_ase()` of the source is the identity of
this embedding); `indices` is the optional nested index list. -/
structure Topology where
  label : Option String
  method : Option String
  building_block : Option String
  cheminformatics : Option Cheminformatics
  indices : Option (List (List Nat))
  atoms : Option AtomSet
  atoms_ref : Option AtomSet
deriving DecidableEq

/-- Python falsiness of an optional string field
(`not getattr(system, f, None)`): absent or empty. -/
def blankStr (o : Option String) : Bool :=
  match o with
  | Option.none => true
  | some s => s.isEmpty

/-- `if not getattr(system, f, None): system.f = dflt` for one field. -/
def fillField (cur : Option String) (dflt : String) : Option String :=
  if blankStr cur then some dflt else cur

/-- `generate_topology_util` from `atoms_utils.py`: a no-op when
`molecule_data is None`, otherwise fill `label`, `method` and
`building_block` when they are unset/empty. -/
def generate_topology_util (system : Topology) (inchikey : Option String)
    (molecule_data : Option (List Record)) : Topology :=
  match molecule_data with
  | Option.none => system
  | some _ =>
    { system with
      label := fillField system.label "molecule",
      method := fillField system.method "parser",
      building_block := fillField system.building_block "molecule" }

/-- The `Cheminformatics(...)` constructions of `molecules.py` lines
118-136: the full-match branch reads `SMILES`, `InChIKey` and `InChI` from
the first record (`KeyError`/`IndexError` become `Except.error`); the
partial branch stores only the computed key and the skeleton label. -/
def annotateCheminformatics (inchikey : String) (molecule_data : List Record)
    (matched_full : Bool) : Except String Cheminformatics :=
  if matched_full then
    match molecule_data with
    | [] => Except.error "IndexError"
    | r :: _ =>
      match recLookup r "SMILES", recLookup r "InChIKey", recLookup r "InChI" with
      | some s, some k, some i =>
        Except.ok ⟨some s, some k, some i, some "full structure"⟩
      | _, _, _ => Except.error "KeyError"
  else
    Except.ok ⟨Option.none, some inchikey, Option.none, some "skeleton (core)"⟩

/-- The annotation step of `MoleculesNormalizer.normalize` (lines 117-139):
assign `topology.cheminformatics` from the match, then call
`generate_topology_util`. -/
def annotateTopology (t : Topology) (inchikey : String)
    (molecule_data : List Record) (matched_full : Bool) : Except String Topology :=
  match annotateCheminformatics inchikey molecule_data matched_full with
  | Except.error e => Except.error e
  | Except.ok cf =>
    Except.ok (generate_topology_util { t with cheminformatics := some cf }
      (some inchikey) (some molecule_data))

/-- ASE fancy indexing `atoms[idx]` with a list of indices: selects those
atoms, keeping cell and periodicity; an out-of-range index raises
(`Option.none`). -/
def selectAtoms (a : AtomSet) (idx : List Nat) : Option AtomSet :=
  match idx.mapM (fun i => a.symbols[i]?), idx.mapM (fun i => a.positions[i]?) with
  | some syms, some poss => some { symbols := syms, positions := poss, cell := a.cell, pbc := a.pbc }
  | _, _ => Option.none

/-- `get_atoms_data` from `atoms_utils.py`: prefer the first index block
applied to `atoms_ref` (any failure is caught and yields `None`), then the
inline `atoms`, then `atoms_ref`. -/
def get_atoms_data (topology : Topology) (atoms_ref : AtomSet) : Option AtomSet :=
  match topology.indices with
  | some idxs =>
    match idxs with
    | [] => Option.none
    | idx :: _ => selectAtoms atoms_ref idx
  | Option.none =>
    match topology.atoms with
    | some a => some a
    | Option.none =>
      match topology.atoms_ref with
      | some a => some a
      | Option.none => Option.none

/-- `validate_atom_count` from `atoms_utils.py`; `len(atoms_data)` is the
number of positions of the ASE object. -/
def validate_atom_count (atoms_data : AtomSet) (min_atoms max_atoms : ℤ) : Bool :=
  if (atoms_data.positions.length : ℤ) < min_atoms then false
  else if (atoms_data.positions.length : ℤ) > max_atoms then false
  else true

/-- `validate_dimensionality`: accept exactly the 0-dimensional
classification of the external classifier. -/
def validate_dimensionality (getDim : AtomSet → Nat) (atoms : AtomSet) : Bool :=
  getDim atoms == 0

/-- The external collaborators of the pipeline. -/
structure Env where
  fileExists : String → Bool
  atomsToInchikey : AtomSet → Except String String
  dbSearch : String → String → Except String (List Record)
  getDim : AtomSet → Nat

/-- The body of the `for topology in topologies` loop of
`MoleculesNormalizer.normalize` for one entry: skip rules, atoms retrieval,
validation, conditional unwrap, dimensionality gate, database query and
annotation.  `Except.error` stands for an exception escaping the loop
body (the source has no handler there). -/
def processTopology (env : Env) (database_file : String) (min_atoms max_atoms : ℤ)
    (num_topologies : Nat) (t : Topology) : Except String Topology :=
  if t.label = some "conventional cell" then Except.ok t
  else if t.label = some "original" ∧ 1 < num_topologies then Except.ok t
  else
    match (match t.atoms_ref with
           | some a => some a
           | Option.none => t.atoms) with
    | Option.none => Except.ok t
    | some aref =>
      match get_atoms_data t aref with
      | Option.none => Except.ok t
      | some ase0 =>
        if validate_atom_count ase0 min_atoms max_atoms = false then Except.ok t
        else
          let ase1 := if allPbc ase0 then wrap_atoms ase0 else ase0
          if validate_dimensionality env.getDim ase1 = false then Except.ok t
          else
            let q := query_molecule_database_util env.fileExists env.atomsToInchikey
              env.dbSearch ase1 database_file
            match q.inchikey, q.full_match with
            | some ik, some fm => annotateTopology t ik q.results fm
            | _, _ => Except.ok t

/-- The topology loop: each entry is processed in order; an exception stops
the loop, leaving the current and the remaining entries as they were, and
is reported in the second component. -/
def normalizeGo (env : Env) (database_file : String) (min_atoms max_atoms : ℤ)
    (num_topologies : Nat) : List Topology → List Topology × Option String
  | [] => ([], Option.none)
  | t :: rest =>
    match processTopology env database_file min_atoms max_atoms num_topologies t with
    | Except.ok t' =>
      let r := normalizeGo env database_file min_atoms max_atoms num_topologies rest
      (t' :: r.1, r.2)
    | Except.error e => (t :: rest, some e)

/-- `MoleculesNormalizer.normalize` restricted to its per-topology work:
process every entry of `archive.results.material.topology` against the
fixed entry count of the list read at entry. -/
def normalizeTopologies (env : Env) (database_file : String)
    (min_atoms max_atoms : ℤ) (ts : List Topology) : List Topology × Option String :=
  normalizeGo env database_file min_atoms max_atoms ts.length ts

/-- The call `wrap_atoms(atoms)` in heap form, making the Python object
identity explicit: the heap maps references to `AtomSet` values;
`atoms.set_positions(...)` and `atoms.center()` write through the given
reference (`Function.update`), and the function returns that same
reference (`return atoms`). -/
def wrapAtomsCall (heap : Nat → AtomSet) (r : Nat) : (Nat → AtomSet) × Nat :=
  (Function.update heap r (wrap_atoms (heap r)), r)

/-- A cubic 5 Å cell, the cell of the repository's wrap test fixtures. -/
def diag5 : Mat3 := ⟨⟨5, 0, 0⟩, ⟨0, 5, 0⟩, ⟨0, 0, 5⟩⟩

/-- The `pbc_wrapping` fixture of `tests/normalizer/test_atoms_utils.py`:
three atoms in a periodic 5 Å cube. -/
def waterAtoms : AtomSet :=
  ⟨["O", "H", "H"], [⟨1/5, 5/2, 5/2⟩, ⟨21/5, 5/2, 5/2⟩, ⟨1/5, 7/2, 5/2⟩],
   diag5, (true, true, true)⟩

/-- The `singular_cell` fixture: a cell with a zero row. -/
def singCell : Mat3 := ⟨⟨1, 0, 0⟩, ⟨0, 0, 0⟩, ⟨0, 0, 1⟩⟩

/-- Two atoms in the singular cell. -/
def singAtoms : AtomSet := ⟨["H", "H"], [⟨0, 0, 0⟩, ⟨1, 1, 1⟩], singCell, (true, true, true)⟩

/-- A strongly skewed but non-singular cell: lattice rows `(1,0,0)`,
`(1/2,1/50,0)`, `(0,0,1)`. -/
def skewCell : Mat3 := ⟨⟨1, 0, 0⟩, ⟨1/2, 1/50, 0⟩, ⟨0, 0, 1⟩⟩

/-- Two atoms in the skewed cell with displacement `(49/100, 0, 0)`. -/
def skewAtoms : AtomSet :=
  ⟨["H", "H"], [⟨0, 0, 0⟩, ⟨49/100, 0, 0⟩], skewCell, (true, true, true)⟩

/-- A heap binding every reference to the wrap test fixture. -/
def heap0 : Nat → AtomSet := fun _ => waterAtoms

/-- A topology entry whose output fields, including the identity block, are
all populated. -/
def entryFull : Topology :=
  { label := some "sys", method := some "user", building_block := some "monomer",
    cheminformatics := some ⟨some "O", some "OLDKEY", some "InChI=old", some "full structure"⟩,
    indices := Option.none, atoms := Option.none, atoms_ref := Option.none }

/-- `entryFull` after a skeleton-tier annotation with computed key `"K"`. -/
def entryFullAnnotated : Topology :=
  { entryFull with
    cheminformatics := some ⟨Option.none, some "K", Option.none, some "skeleton (core)"⟩ }

/-- A topology entry with every optional field unset. -/
def entryBlank : Topology :=
  { label := Option.none, method := Option.none, building_block := Option.none,
    cheminformatics := Option.none, indices := Option.none, atoms := Option.none,
    atoms_ref := Option.none }

/-- The 27-character InChIKey of heavy water, whose first 14 characters
agree with the key of ordinary water. -/
def heavyWaterKey : String := "XLYOFNOQVPJJNP-ZSJDYOACSA-N"

/-- An environment whose database file never exists. -/
def envNoDb : Env :=
  { fileExists := fun _ => false, atomsToInchikey := fun _ => Except.error "no key",
    dbSearch := fun _ _ => Except.ok [], getDim := fun _ => 0 }

/-- A topology entry labelled `conventional cell`. -/
def entryConv : Topology := { entryBlank with label := some "conventional cell" }

/-- The lattice translation `n1*row0 + n2*row1 + n3*row2` of a cell: the
offset between an atom and its periodic image indexed by `(n1, n2, n3)`
under the ASE convention that cell rows are the lattice vectors. -/
def latticeVec (m : Mat3) (n1 n2 n3 : ℤ) : Vec3 :=
  Vec3.smul (n1 : ℚ) m.r0 + Vec3.smul (n2 : ℚ) m.r1 + Vec3.smul (n3 : ℚ) m.r2

theorem Vec3.add_def (a b : Vec3) : a + b = ⟨a.x + b.x, a.y + b.y, a.z + b.z⟩ := rfl

theorem Vec3.sub_def (a b : Vec3) : a - b = ⟨a.x - b.x, a.y - b.y, a.z - b.z⟩ := rfl

theorem Vec3.neg_def (a : Vec3) : -a = ⟨-a.x, -a.y, -a.z⟩ := rfl

theorem Vec3.sub_self' (a : Vec3) : a - a = ⟨0, 0, 0⟩ := by
  simp [Vec3.sub_def]

theorem Vec3.add_sub_add_right (a b t : Vec3) : (a + t) - (b + t) = a - b := by
  obtain ⟨ax, ay, az⟩ := a
  obtain ⟨bx, by', bz⟩ := b
  obtain ⟨tx, ty, tz⟩ := t
  simp only [Vec3.add_def, Vec3.sub_def, Vec3.mk.injEq]
  refine ⟨by ring, by ring, by ring⟩

theorem Vec3.add_sub_cancel_first (b w : Vec3) : (b + w) - b = w := by
  obtain ⟨bx, by', bz⟩ := b
  obtain ⟨wx, wy, wz⟩ := w
  simp only [Vec3.add_def, Vec3.sub_def, Vec3.mk.injEq]
  refine ⟨by ring, by ring, by ring⟩

theorem Mat3.matvec_zero (m : Mat3) : m.matvec ⟨0, 0, 0⟩ = ⟨0, 0, 0⟩ := by
  simp [Mat3.matvec, Vec3.dot]

theorem Mat3.matvec_sub (m : Mat3) (a b : Vec3) :
    m.matvec (a - b) = m.matvec a - m.matvec b := by
  obtain ⟨⟨a00, a01, a02⟩, ⟨a10, a11, a12⟩, ⟨a20, a21, a22⟩⟩ := m
  obtain ⟨ax, ay, az⟩ := a
  obtain ⟨bx, by', bz⟩ := b
  simp only [Mat3.matvec, Vec3.dot, Vec3.sub_def, Vec3.mk.injEq]
  refine ⟨by ring, by ring, by ring⟩

theorem Mat3.matvec_solveVec (m : Mat3) (d : Vec3) (h : m.det ≠ 0) :
    m.matvec (m.solveVec d) = d := by
  obtain ⟨⟨a00, a01, a02⟩, ⟨a10, a11, a12⟩, ⟨a20, a21, a22⟩⟩ := m
  obtain ⟨dx, dy, dz⟩ := d
  simp only [Mat3.det] at h
  simp only [Mat3.matvec, Mat3.solveVec, Mat3.transpose, Mat3.det, Vec3.dot, Vec3.mk.injEq]
  refine ⟨?_, ?_, ?_⟩ <;> field_simp <;> ring

theorem npRound_close (q : ℚ) : |q - (npRound q : ℚ)| ≤ 1 / 2 := by
  have h0 : ((⌊q⌋ : ℚ)) ≤ q := Int.floor_le q
  have h1 : q < ⌊q⌋ + 1 := Int.lt_floor_add_one q
  unfold npRound
  split_ifs with ha hb hc
  · rw [abs_le]; constructor <;> linarith
  · rw [abs_le]; push_cast; constructor <;> linarith
  · rw [abs_le]; constructor <;> linarith
  · rw [abs_le]; push_cast; constructor <;> linarith

set_option maxRecDepth 8000 in
theorem waterWrap_eval :
    (wrap_atoms waterAtoms).positions = [⟨3, 2, 5/2⟩, ⟨2, 2, 5/2⟩, ⟨3, 3, 5/2⟩] := by
  norm_num [wrap_atoms, center, centerTranslation, wrapDisp, npSolve, npRound, npRoundVec,
    Mat3.det, Mat3.matvec, Mat3.solveVec, Mat3.transpose, Vec3.dot, Vec3.cross, Vec3.smul,
    qabs, qmin, qmax, qmin2, qmax2, SINGULAR_CELL_DET_THRESHOLD,
    Vec3.add_def, Vec3.sub_def, Vec3.neg_def, waterAtoms, diag5]

set_option maxRecDepth 8000 in
theorem skewWrap_eval :
    (wrap_atoms skewAtoms).positions = [⟨101/200, -11/100, 1/2⟩, ⟨199/200, 13/100, 1/2⟩] := by
  norm_num [wrap_atoms, center, centerTranslation, wrapDisp, npSolve, npRound, npRoundVec,
    Mat3.det, Mat3.matvec, Mat3.solveVec, Mat3.transpose, Vec3.dot, Vec3.cross, Vec3.smul,
    qabs, qmin, qmax, qmin2, qmax2, SINGULAR_CELL_DET_THRESHOLD,
    Vec3.add_def, Vec3.sub_def, Vec3.neg_def, skewAtoms, skewCell]

/-- Claim C8: for every AtomSet whose lattice matrix has determinant
magnitude below 1e-8, unwrap returns the input with all atom positions
unchanged — no minimum-image correction and no re-centering is applied. -/
theorem wrap_atoms_singular_identity (A : AtomSet)
    (h : qabs A.cell.det < SINGULAR_CELL_DET_THRESHOLD) : wrap_atoms A = A := by
  rw [wrap_atoms, if_pos h]

theorem wrap_atoms_singular_identity_witness : wrap_atoms singAtoms = singAtoms :=
  wrap_atoms_singular_identity singAtoms
    (by norm_num [qabs, Mat3.det, singAtoms, singCell, SINGULAR_CELL_DET_THRESHOLD])

/-- Claim C9 (counterexample): `wrap_atoms` returns the very reference it
was given (the same Python object, not a new AtomSet) and the positions
stored behind that input reference have changed after the call —
`atoms.set_positions(...)`/`atoms.center()` mutate the argument in place. -/
theorem wrap_atoms_mutates_input_cex :
    (wrapAtomsCall heap0 0).2 = 0 ∧
    ((wrapAtomsCall heap0 0).1 0).positions ≠ (heap0 0).positions := by
  constructor
  · rfl
  · show (Function.update heap0 0 (wrap_atoms (heap0 0)) 0).positions ≠ (heap0 0).positions
    rw [Function.update_same]
    show (wrap_atoms waterAtoms).positions ≠ waterAtoms.positions
    rw [waterWrap_eval]
    norm_num [waterAtoms]

/-- Claim C9 (amended): the unwrap call writes only through the reference
it is handed and returns that same reference; every other object of the
heap is untouched.  (The pipeline hands it a freshly derived ASE copy of
the host data, so host-owned structures stay intact even though the
argument itself is mutated in place.) -/
theorem wrap_atoms_writes_only_its_argument (heap : Nat → AtomSet) (r r' : Nat)
    (h : r' ≠ r) :
    (wrapAtomsCall heap r).1 r' = heap r' ∧ (wrapAtomsCall heap r).2 = r :=
  ⟨Function.update_noteq h _ _, rfl⟩

theorem wrap_atoms_writes_only_its_argument_witness :
    (wrapAtomsCall heap0 0).1 1 = heap0 1 ∧ (wrapAtomsCall heap0 0).2 = 0 :=
  wrap_atoms_writes_only_its_argument heap0 0 1 (by decide)

/-- Claim C2 (counterexample): for the skewed non-singular, fully periodic
cell `skewCell`, the unwrapped displacement of atom 1 from atom 0 is not
minimal over the periodic images — the image offset by `-row1` is strictly
closer — so rounding fractional components does not give the standard
minimum-image property. -/
theorem wrap_atoms_min_image_cex :
    SINGULAR_CELL_DET_THRESHOLD ≤ qabs skewAtoms.cell.det ∧
    allPbc skewAtoms = true ∧
    (wrap_atoms skewAtoms).positions = [⟨101/200, -11/100, 1/2⟩, ⟨199/200, 13/100, 1/2⟩] ∧
    Vec3.sqNorm ((⟨199/200, 13/100, 1/2⟩ - ⟨101/200, -11/100, 1/2⟩ : Vec3) +
        latticeVec skewAtoms.cell 0 (-1) 0)
      < Vec3.sqNorm ((⟨199/200, 13/100, 1/2⟩ - ⟨101/200, -11/100, 1/2⟩ : Vec3)) := by
  refine ⟨?_, rfl, skewWrap_eval, ?_⟩
  · norm_num [qabs, Mat3.det, skewAtoms, skewCell, SINGULAR_CELL_DET_THRESHOLD]
  · norm_num [Vec3.sqNorm, Vec3.dot, latticeVec, Vec3.smul, Vec3.add_def, Vec3.sub_def,
      skewAtoms, skewCell]

/-- Claim C2 (amended): for every AtomSet with a non-singular lattice
(|det| at least 1e-8) and all periodicity flags true, after unwrap the
displacement of every atom from atom 0 has fractional coordinates (in the
basis the code solves against, the cell columns) each within [-1/2, 1/2]:
the correction picks the nearest image along each fractional axis
independently.  Minimality of the Euclidean distance over all periodic
images follows only for orthogonal cells and fails in general. -/
theorem wrap_atoms_fractional_bound (A : AtomSet)
    (hdet : SINGULAR_CELL_DET_THRESHOLD ≤ qabs A.cell.det)
    (hpbc : allPbc A = true)
    (i : Nat) (p0 pi : Vec3)
    (h0 : (wrap_atoms A).positions[0]? = some p0)
    (hi : (wrap_atoms A).positions[i]? = some pi) :
    ∃ u : Vec3, A.cell.matvec u = pi - p0 ∧
      |u.x| ≤ 1 / 2 ∧ |u.y| ≤ 1 / 2 ∧ |u.z| ≤ 1 / 2 := by
  have hne : A.cell.det ≠ 0 := by
    intro hz
    rw [hz] at hdet
    norm_num [qabs, SINGULAR_CELL_DET_THRESHOLD] at hdet
  have hcond : ¬ qabs A.cell.det < SINGULAR_CELL_DET_THRESHOLD := not_lt.mpr hdet
  rw [wrap_atoms, if_neg hcond] at h0 hi
  cases hp : A.positions with
  | nil =>
    rw [hp] at h0
    simp [hp] at h0
  | cons ref rest =>
    rw [hp] at h0 hi
    simp only [center, List.map_cons, List.getElem?_cons_zero, Option.some.injEq] at h0
    cases i with
    | zero =>
      simp only [center, List.map_cons, List.getElem?_cons_zero, Option.some.injEq] at hi
      refine ⟨⟨0, 0, 0⟩, ?_, ?_, ?_, ?_⟩
      · rw [Mat3.matvec_zero, ← h0, ← hi, Vec3.sub_self']
      · simp
      · simp
      · simp
    | succ j =>
      simp only [center, List.map_cons, List.getElem?_cons_succ, List.getElem?_map] at hi
      cases hrj : rest[j]? with
      | none =>
        rw [hrj] at hi
        exact absurd hi (by simp)
      | some p =>
        rw [hrj] at hi
        simp only [Option.map_some', Option.some.injEq] at hi
        have hdiff : pi - p0 = wrapDisp A.cell (p - ref) := by
          rw [← hi, ← h0, Vec3.add_sub_add_right, Vec3.add_sub_cancel_first]
        have hsolve : npSolve A.cell (p - ref) = some (A.cell.solveVec (p - ref)) := by
          rw [npSolve, if_neg hne]
        have hwd : wrapDisp A.cell (p - ref) =
            (p - ref) - A.cell.matvec (npRoundVec (A.cell.solveVec (p - ref))) := by
          rw [wrapDisp, hsolve]
        refine ⟨A.cell.solveVec (p - ref) - npRoundVec (A.cell.solveVec (p - ref)),
          ?_, ?_, ?_, ?_⟩
        · rw [Mat3.matvec_sub, Mat3.matvec_solveVec _ _ hne, hdiff, hwd]
        · simp only [Vec3.sub_def, npRoundVec]
          exact npRound_close _
        · simp only [Vec3.sub_def, npRoundVec]
          exact npRound_close _
        · simp only [Vec3.sub_def, npRoundVec]
          exact npRound_close _

theorem wrap_atoms_fractional_bound_witness :
    ∃ u : Vec3, waterAtoms.cell.matvec u = ((⟨2, 2, 5/2⟩ : Vec3) - ⟨3, 2, 5/2⟩) ∧
      |u.x| ≤ 1 / 2 ∧ |u.y| ≤ 1 / 2 ∧ |u.z| ≤ 1 / 2 :=
  wrap_atoms_fractional_bound waterAtoms
    (by norm_num [qabs, Mat3.det, waterAtoms, diag5, SINGULAR_CELL_DET_THRESHOLD])
    rfl 1 ⟨3, 2, 5/2⟩ ⟨2, 2, 5/2⟩
    (by simp [waterWrap_eval]) (by simp [waterWrap_eval])

/-- Claim C7: for every AtomSet with atom count n and bounds, the
validator accepts exactly when `min_atoms <= n <= max_atoms`; in
particular n equal to either bound is accepted and `min_atoms - 1` or
`max_atoms + 1` is rejected. -/
theorem validate_atom_count_iff (a : AtomSet) (min_atoms max_atoms : ℤ) :
    (validate_atom_count a min_atoms max_atoms = true ↔
      min_atoms ≤ (a.positions.length : ℤ) ∧ (a.positions.length : ℤ) ≤ max_atoms) ∧
    ((a.positions.length : ℤ) = min_atoms - 1 →
      validate_atom_count a min_atoms max_atoms = false) ∧
    ((a.positions.length : ℤ) = max_atoms + 1 →
      validate_atom_count a min_atoms max_atoms = false) ∧
    (min_atoms ≤ max_atoms →
      ((a.positions.length : ℤ) = min_atoms ∨ (a.positions.length : ℤ) = max_atoms) →
      validate_atom_count a min_atoms max_atoms = true) := by
  unfold validate_atom_count
  refine ⟨?_, ?_, ?_, ?_⟩ <;> split_ifs <;> simp_all <;> omega

theorem validate_atom_count_iff_witness : validate_atom_count waterAtoms 2 5 = true :=
  (validate_atom_count_iff waterAtoms 2 5).1.mpr (by norm_num [waterAtoms])

/-- Claim C5: any exception of the external canonical-key computation or
of the database lookup is caught inside the resolver and converted to a
result with no candidates and tier none; the resolver is total over these
failure modes (it returns a plain `QueryResult`, never an exception). -/
theorem resolver_catches_external_failures (fileEx : String → Bool)
    (toKey : AtomSet → Except String String)
    (search : String → String → Except String (List Record))
    (atoms : AtomSet) (db : String) :
    (∀ e, toKey atoms = Except.error e →
      query_molecule_database_util fileEx toKey search atoms db
        = ⟨Option.none, [], Option.none⟩) ∧
    (∀ key e, toKey atoms = Except.ok key → search db key = Except.error e →
      query_molecule_database_util fileEx toKey search atoms db
        = ⟨Option.none, [], Option.none⟩) := by
  constructor
  · intro e he
    unfold query_molecule_database_util
    split
    · rfl
    · rw [he]
  · intro key e hk hs
    unfold query_molecule_database_util
    split
    · rfl
    · simp only [hk, hs]

/-- Claim C6: if the database path does not refer to an existing file, the
resolver returns immediately with no canonical key, an empty candidate
list and tier none, and the result does not depend on the canonical-key
computation or the lookup (they are never invoked). -/
theorem resolver_missing_database (fileEx : String → Bool)
    (toKey toKey' : AtomSet → Except String String)
    (search search' : String → String → Except String (List Record))
    (atoms : AtomSet) (db : String) (h : fileEx db = false) :
    query_molecule_database_util fileEx toKey search atoms db
      = ⟨Option.none, [], Option.none⟩ ∧
    query_molecule_database_util fileEx toKey search atoms db
      = query_molecule_database_util fileEx toKey' search' atoms db := by
  unfold query_molecule_database_util
  rw [h]
  simp

theorem resolver_missing_database_witness :
    query_molecule_database_util envNoDb.fileExists envNoDb.atomsToInchikey envNoDb.dbSearch
        waterAtoms "missing.db"
      = ⟨Option.none, [], Option.none⟩ ∧
    query_molecule_database_util envNoDb.fileExists envNoDb.atomsToInchikey envNoDb.dbSearch
        waterAtoms "missing.db"
      = query_molecule_database_util envNoDb.fileExists (fun _ => Except.ok "K")
          (fun _ _ => Except.ok []) waterAtoms "missing.db" :=
  resolver_missing_database envNoDb.fileExists envNoDb.atomsToInchikey
    (fun _ => Except.ok "K") envNoDb.dbSearch (fun _ _ => Except.ok []) waterAtoms
    "missing.db" rfl

theorem recLookup_ne_nil {r : Record} {k v : String} (h : recLookup r k = some v) :
    recIsEmpty r = false := by
  cases r with
  | nil => simp [recLookup] at h
  | cons a rest => rfl

/-- Claim C1: when the database lookup returns a non-empty candidate list,
the match tier is full exactly when the first candidate's stored key
equals the computed canonical key (string equality) and partial
(`skeleton`) otherwise; when the lookup returns no candidates the result
has tier none but still carries the computed canonical key.  (The first
candidate is assumed to carry a stored `InChIKey`, as the reference
database contract guarantees.) -/
theorem resolver_tier_classification (fileEx : String → Bool)
    (toKey : AtomSet → Except String String)
    (search : String → String → Except String (List Record))
    (atoms : AtomSet) (db key : String) (results : List Record)
    (hfe : fileEx db = true) (hck : toKey atoms = Except.ok key)
    (hds : search db key = Except.ok results) :
    (∀ r rest v, results = r :: rest → recLookup r "InChIKey" = some v →
      (query_molecule_database_util fileEx toKey search atoms db).tier
          = (if v = key then Tier.full else Tier.skeleton) ∧
      (query_molecule_database_util fileEx toKey search atoms db).inchikey = some key ∧
      (query_molecule_database_util fileEx toKey search atoms db).results = results) ∧
    (results = [] →
      query_molecule_database_util fileEx toKey search atoms db
        = ⟨some key, [], Option.none⟩) := by
  constructor
  · intro r rest v hres hv
    subst hres
    have hq : query_molecule_database_util fileEx toKey search atoms db
        = ⟨some key, r :: rest, some (v == key)⟩ := by
      unfold query_molecule_database_util
      rw [hfe]
      simp only [Bool.true_eq_false, if_false, hck, hds, List.isEmpty_cons,
        List.headD_cons, recLookup_ne_nil hv, Bool.or_self, Bool.false_eq_true,
        if_false, hv]
    rw [hq]
    by_cases hvk : v = key
    · simp [QueryResult.tier, hvk]
    · simp [QueryResult.tier, hvk, beq_eq_false_iff_ne.mpr hvk]
  · intro hres
    subst hres
    unfold query_molecule_database_util
    rw [hfe]
    simp [hck, hds]

theorem resolver_tier_classification_witness :
    ((query_molecule_database_util (fun _ => true) (fun _ => Except.ok "KEYA")
        (fun _ _ => Except.ok [[("InChIKey", "KEYB")]]) waterAtoms "db").tier
      = (if "KEYB" = "KEYA" then Tier.full else Tier.skeleton)) ∧
    ((query_molecule_database_util (fun _ => true) (fun _ => Except.ok "KEYA")
        (fun _ _ => Except.ok [[("InChIKey", "KEYB")]]) waterAtoms "db").inchikey
      = some "KEYA") ∧
    ((query_molecule_database_util (fun _ => true) (fun _ => Except.ok "KEYA")
        (fun _ _ => Except.ok [[("InChIKey", "KEYB")]]) waterAtoms "db").results
      = [[("InChIKey", "KEYB")]]) :=
  (resolver_tier_classification (fun _ => true) (fun _ => Except.ok "KEYA")
      (fun _ _ => Except.ok [[("InChIKey", "KEYB")]]) waterAtoms "db" "KEYA"
      [[("InChIKey", "KEYB")]] rfl rfl rfl).1
    [("InChIKey", "KEYB")] [] "KEYB" rfl (by simp [recLookup])

theorem blankStr_fillField (c : Option String) (d : String) (hd : d.isEmpty = false) :
    blankStr (fillField c d) = false := by
  unfold fillField
  split_ifs with h
  · simpa [blankStr] using hd
  · simpa using h

theorem fillField_of_not_blank {c : Option String} (d : String)
    (h : blankStr c = false) : fillField c d = c := by
  unfold fillField
  rw [h]
  simp

theorem fillField_idem (c : Option String) (d : String) (hd : d.isEmpty = false) :
    fillField (fillField c d) d = fillField c d :=
  fillField_of_not_blank d (blankStr_fillField c d hd)

/-- Claim C3 (counterexample): annotating an entry whose identity block is
already populated replaces that block — `topology.cheminformatics` is
assigned unconditionally, so a non-empty identity block does not keep its
value. -/
theorem annotate_overwrites_identity_block_cex :
    annotateTopology entryFull "K" [] false = Except.ok entryFullAnnotated ∧
    entryFullAnnotated.cheminformatics ≠ entryFull.cheminformatics := by
  constructor
  · rfl
  · simp [entryFull, entryFullAnnotated]

/-- Claim C3 (amended): the annotator never overwrites an already-populated
`label`, `method` or `building_block`, and re-running annotation with the
same MatchResult leaves the entry unchanged (idempotence); the identity
block `cheminformatics`, however, is unconditionally (re)assigned from the
MatchResult — only re-running with the same match writes the same value
back. -/
theorem annotate_preserves_fields_and_idempotent (t : Topology) (ik : String)
    (md : List Record) (fm : Bool) (t' : Topology)
    (h : annotateTopology t ik md fm = Except.ok t') :
    (blankStr t.label = false → t'.label = t.label) ∧
    (blankStr t.method = false → t'.method = t.method) ∧
    (blankStr t.building_block = false → t'.building_block = t.building_block) ∧
    annotateTopology t' ik md fm = Except.ok t' := by
  unfold annotateTopology at h ⊢
  cases hc : annotateCheminformatics ik md fm with
  | error e =>
    rw [hc] at h
    exact absurd h (by simp)
  | ok cf =>
    rw [hc] at h
    simp only [Except.ok.injEq] at h
    subst h
    unfold generate_topology_util
    refine ⟨?_, ?_, ?_, ?_⟩
    · intro hb
      simp [fillField_of_not_blank _ hb]
    · intro hb
      simp [fillField_of_not_blank _ hb]
    · intro hb
      simp [fillField_of_not_blank _ hb]
    · simp only [Except.ok.injEq]
      simp [fillField_idem _ "molecule" rfl, fillField_idem _ "parser" rfl]

theorem annotate_preserves_fields_and_idempotent_witness :
    (blankStr entryFull.label = false → entryFullAnnotated.label = entryFull.label) ∧
    (blankStr entryFull.method = false → entryFullAnnotated.method = entryFull.method) ∧
    (blankStr entryFull.building_block = false →
      entryFullAnnotated.building_block = entryFull.building_block) ∧
    annotateTopology entryFullAnnotated "K" [] false = Except.ok entryFullAnnotated :=
  annotate_preserves_fields_and_idempotent entryFull "K" [] false entryFullAnnotated rfl

/-- Claim C4 (counterexample): on a partial (skeleton) match the annotator
stores the full computed canonical key in the identity block, not its
truncated 14-character skeleton form — for the heavy-water key the stored
value differs from the 14-character prefix. -/
theorem annotate_skeleton_full_key_cex :
    annotateTopology entryBlank heavyWaterKey
        [[("InChIKey", "XLYOFNOQVPJJNP-UHFFFAOYSA-N")]] false
      = Except.ok { entryBlank with
          label := some "molecule", method := some "parser",
          building_block := some "molecule",
          cheminformatics := some ⟨Option.none, some heavyWaterKey, Option.none,
            some "skeleton (core)"⟩ } ∧
    some heavyWaterKey ≠ some (heavyWaterKey.take 14) := by
  constructor
  · rfl
  · decide

/-- Claim C4 (amended): on a partial (skeleton) match the annotator sets
only the canonical-key field of the identity block and the tier label
`skeleton (core)`, leaving the descriptor (SMILES/InChI) fields empty; the
stored value is the full computed canonical key, not the truncated
14-character form. -/
theorem annotate_skeleton_sets_only_key (t : Topology) (ik : String)
    (md : List Record) (t' : Topology)
    (h : annotateTopology t ik md false = Except.ok t') :
    t'.cheminformatics
      = some ⟨Option.none, some ik, Option.none, some "skeleton (core)"⟩ := by
  unfold annotateTopology annotateCheminformatics at h
  simp only [Bool.false_eq_true, if_false, Except.ok.injEq] at h
  subst h
  simp [generate_topology_util]

theorem annotate_skeleton_sets_only_key_witness :
    ({ entryBlank with
        label := some "molecule", method := some "parser",
        building_block := some "molecule",
        cheminformatics := some ⟨Option.none, some "K", Option.none,
          some "skeleton (core)"⟩ } : Topology).cheminformatics
      = some ⟨Option.none, some "K", Option.none, some "skeleton (core)"⟩ :=
  annotate_skeleton_sets_only_key entryBlank "K" [] _ rfl

theorem processTopology_protected (env : Env) (db : String) (mn mx : ℤ) (n : Nat)
    (t : Topology)
    (h : t.label = some "conventional cell" ∨ (t.label = some "original" ∧ 1 < n)) :
    processTopology env db mn mx n t = Except.ok t := by
  rcases h with h | ⟨h, hn⟩
  · unfold processTopology
    rw [h]
    simp
  · unfold processTopology
    rw [h]
    rw [if_neg (by simp), if_pos ⟨rfl, hn⟩]

theorem normalizeGo_protected (env : Env) (db : String) (mn mx : ℤ) (n : Nat)
    (t : Topology)
    (h : t.label = some "conventional cell" ∨ (t.label = some "original" ∧ 1 < n)) :
    ∀ (ts : List Topology) (i : Nat), ts[i]? = some t →
      (normalizeGo env db mn mx n ts).1[i]? = some t := by
  intro ts
  induction ts with
  | nil =>
    intro i hi
    simp at hi
  | cons t0 rest ih =>
    intro i hi
    cases i with
    | zero =>
      simp only [List.getElem?_cons_zero, Option.some.injEq] at hi
      subst hi
      simp only [normalizeGo, processTopology_protected env db mn mx n t0 h,
        List.getElem?_cons_zero]
    | succ j =>
      simp only [List.getElem?_cons_succ] at hi
      simp only [normalizeGo]
      cases hpt : processTopology env db mn mx n t0 with
      | ok t0' =>
        simpa using ih j hi
      | error e =>
        simpa using hi

/-- Claim C10: a topology entry labelled `conventional cell` is left
completely unmodified by the pipeline, and an entry labelled `original` is
left completely unmodified whenever the topology list has more than one
entry — the loop skips them before any field is written. -/
theorem normalize_skips_protected_labels (env : Env) (db : String) (mn mx : ℤ)
    (ts : List Topology) (i : Nat) (t : Topology)
    (hget : ts[i]? = some t)
    (hprot : t.label = some "conventional cell" ∨
      (t.label = some "original" ∧ 1 < ts.length)) :
    (normalizeTopologies env db mn mx ts).1[i]? = some t :=
  normalizeGo_protected env db mn mx ts.length t hprot ts i hget

theorem normalize_skips_protected_labels_witness :
    (normalizeTopologies envNoDb "db" 2 100 [entryConv]).1[0]? = some entryConv :=
  normalize_skips_protected_labels envNoDb "db" 2 100 [entryConv] 0 entryConv rfl
    (Or.inl rfl)

theorem resolver_catches_external_failures_witness :
    query_molecule_database_util (fun _ => true) (fun _ => Except.error "boom")
        (fun _ _ => Except.ok []) waterAtoms "db"
      = ⟨Option.none, [], Option.none⟩ :=
  (resolver_catches_external_failures (fun _ => true) (fun _ => Except.error "boom")
      (fun _ _ => Except.ok []) waterAtoms "db").1 "boom" rfl
